import Mathlib

/-!
Verification of the Pythia forecasting service data pipeline
(src/forecasting-service/main.py) against its natural-language
specification.

The pipeline is shallowly embedded over exact rational arithmetic: daily
series values are `ℚ`, calendar days are `ℤ` (one unit per day, matching the
daily resampling in the source), and the external collaborators (Supabase
event/forecast stores, the Prophet fit/predict capability) are explicit
parameters, as the specification itself declares them external interfaces.
The genuinely transcendental part of the code (the `log1p`/`expm1` scale
transform) is embedded over `ℝ`.
-/

namespace Pythia

/-! ### Basic statistics mirroring pandas / numpy

`quantileSorted` is the linear-interpolation quantile that
`pandas.Series.quantile` (default `interpolation='linear'`), `np.median` and
`np.percentile` all compute: on a sorted list of length `n` the quantile `q`
is the value linearly interpolated at position `q * (n - 1)`.
-/

def listSum (l : List ℚ) : ℚ := l.foldr (· + ·) 0

/-- Mean of a list, `pandas.Series.mean`; guarded uses in the source only
evaluate it on nonempty lists. -/
def listMean (l : List ℚ) : ℚ := listSum l / l.length

def sortQ (l : List ℚ) : List ℚ := List.insertionSort (· ≤ ·) l

/-- Index part of the interpolation position `q * (n - 1)`. -/
def qIndex (n : ℕ) (q : ℚ) : ℕ := (⌊q * ((n : ℚ) - 1)⌋).toNat

/-- Fractional part of the interpolation position `q * (n - 1)`. -/
def qFrac (n : ℕ) (q : ℚ) : ℚ := q * ((n : ℚ) - 1) - (qIndex n q : ℚ)

/-- Linear-interpolation quantile of an already-sorted list: the value
interpolated between the entries bracketing position `q * (n - 1)`. -/
def quantileSorted (xs : List ℚ) (q : ℚ) : ℚ :=
  if xs.isEmpty then 0
  else
    xs.getD (qIndex xs.length q) 0 +
      qFrac xs.length q *
        (xs.getD (qIndex xs.length q + 1) (xs.getD (qIndex xs.length q) 0) -
          xs.getD (qIndex xs.length q) 0)

/-- `pandas.Series.quantile(q)` with the default linear interpolation. -/
def quantileQ (l : List ℚ) (q : ℚ) : ℚ := quantileSorted (sortQ l) q

/-- `pandas.Series.median()` / `np.median`: the linear-interpolation
quantile at 1/2 (middle element for odd length, average of the two middle
elements for even length). -/
def medianQ (l : List ℚ) : ℚ := quantileQ l (1/2)

/-- Population variance, as used by the specification's
coefficient-of-variation fallback metric. -/
def varianceQ (l : List ℚ) : ℚ := listMean (l.map (fun x => (x - listMean l) ^ 2))

/-- `pandas.Series.max()` on a series of daily values (0 for the empty
series; the source only consults it on nonempty data). -/
def listMaxD (l : List ℚ) : ℚ :=
  match l with
  | [] => 0
  | x :: xs => xs.foldl max x

/-- Minimum of a list of days (`df['ds'].min()`). -/
def listMinZ (l : List ℤ) : ℤ :=
  match l with
  | [] => 0
  | x :: xs => xs.foldl min x

/-- Maximum of a list of days (`df['ds'].max()`). -/
def listMaxZ (l : List ℤ) : ℤ :=
  match l with
  | [] => 0
  | x :: xs => xs.foldl max x

/-! ### Data model -/

/-- One row of a stored or freshly generated forecast: a future day `ds`
with Prophet's point estimate `yhat` and its interval bounds
(`yhat_lower`, `yhat_upper`). -/
structure FuturePoint where
  ds : ℤ
  yhat : ℚ
  yhatLower : ℚ
  yhatUpper : ℚ
deriving DecidableEq

/-- A previously persisted forecast fetched from the `forecasts` table:
`generated_at` plus its `future` array.  The store query returns these
ordered by `generated_at` descending (most recent first). -/
structure ForecastRecord where
  generatedAt : ℤ
  future : List FuturePoint
deriving DecidableEq

/-- The dictionary returned by `clean_and_forecast` (the `generatedAt`
wall-clock timestamp and the redundant `dataPoints` count are omitted:
no claim concerns them). -/
structure ForecastOut where
  forecast : ℚ
  mape : ℚ
  future : List FuturePoint
deriving DecidableEq

/-- The `metadata` dictionary attached by the HTTP handler. -/
structure Metadata where
  algorithm : String
  tuning : String
  daysForecast : ℕ
  status : String
deriving DecidableEq

/-- The `ForecastResponse` payload of the `/forecast` endpoint
(`generatedAt` omitted as above). -/
structure Response where
  forecast : ℚ
  mape : ℚ
  future : List FuturePoint
  metadata : Metadata
deriving DecidableEq

/-! ### OutlierGuard: distribution-shape cap (main.py lines 63-88)

Applied to the daily value column after gap filling.  If the 95th
percentile exceeds 20x the median (and the median is positive) the values
above `min(5 * q90, q98)` are capped to that value (`np.where`); otherwise
values are clipped into `[0, Q3 + 2.0 * IQR]` (`np.clip`). -/

def capOutliers (ys : List ℚ) : List ℚ :=
  let med := medianQ ys
  let q95 := quantileQ ys (95/100)
  if 20 * med < q95 ∧ 0 < med then
    let capValue := min (quantileQ ys (90/100) * 5) (quantileQ ys (98/100))
    ys.map (fun y => if capValue < y then capValue else y)
  else
    let q1 := quantileQ ys (1/4)
    let q3 := quantileQ ys (3/4)
    let upperBound := q3 + 2 * (q3 - q1)
    ys.map (fun y => min (max y 0) upperBound)

/-! ### OutlierGuard: ingestion contamination scan (main.py lines 455-481)

Runs in `_generate_forecast_no_cache` on the daily value column before any
other cleaning.  The baseline is the median excluding the last 7 days when
more than 14 days exist (whole-series median otherwise); only the most
recent `min(7, len // 10)` days are examined, walking backward from the
most recent day while the ratio to the baseline is `> 10` or `< 0.1`, and
the contiguous extreme run found that way is truncated. -/

/-- The `contaminated_days` counter of the source loop: walking backward
from the most recent of the examined days, the length of the run of days
whose ratio to the baseline is extreme (the loop breaks at the first
non-extreme day; it examines only `recentDays`, and outside the
`len(df) > 7` / positive-baseline guards it never runs, leaving the
counter 0). -/
def contaminationCount (ys : List ℚ) : ℕ :=
  if 7 < ys.length then
    let historicalBaseline :=
      if 14 < ys.length then medianQ (ys.take (ys.length - 7)) else medianQ ys
    let daysToCheck := min 7 (ys.length / 10)
    -- `df['y'].iloc[-days_to_check:]`; when the count is 0 (lengths 8-9)
    -- the Python slice `[-0:]` denotes the whole series, not an empty one
    let recentDays :=
      if daysToCheck = 0 then ys else ys.drop (ys.length - daysToCheck)
    if 0 < historicalBaseline then
      (recentDays.reverse.takeWhile (fun v =>
        decide (10 < v / historicalBaseline) ||
          decide (v / historicalBaseline < 1/10))).length
    else 0
  else 0

/-- `df = df.iloc[:-contaminated_days]` (a no-op when the counter is 0,
exactly as in the source). -/
def contaminationScan (ys : List ℚ) : List ℚ :=
  ys.take (ys.length - contaminationCount ys)

/-! ### AccuracyValidator: live recalibration (main.py lines 149-237)

The two Supabase round-trips are external interfaces; their responses are
the arguments: `actualRows` is the result of the trailing-14-day `events`
query (rows already collapsed to their calendar day), `records` the result
of the `forecasts` query, ordered most recent first.  A failed round-trip
(the `except` arm) keeps the default value 11.9, exactly as the
empty-response arms do. -/

/-- `groupby('ds')['count'].sum()`: per-day totals, keys sorted ascending
as pandas produces them. -/
def groupSumByDay (rows : List (ℤ × ℚ)) : List (ℤ × ℚ) :=
  let keys := List.insertionSort (· ≤ ·) (rows.map Prod.fst).dedup
  keys.map (fun d => (d, listSum ((rows.filter (fun r => r.1 == d)).map Prod.snd)))

/-- Overlap test between a stored forecast's date range and the actual-data
date range (`future['ds'].min() <= actuals['ds'].max() and
future['ds'].max() >= actuals['ds'].min()`), guarded by the source's
nonemptiness check on the stored `future` array. -/
def overlapsB (future : List FuturePoint) (dailyActuals : List (ℤ × ℚ)) : Bool :=
  !future.isEmpty &&
    decide (listMinZ (future.map FuturePoint.ds) ≤ listMaxZ (dailyActuals.map Prod.fst)) &&
    decide (listMinZ (dailyActuals.map Prod.fst) ≤ listMaxZ (future.map FuturePoint.ds))

/-- The date join of main.py lines 192-205: for each daily actual, the first
prediction row with the same day; pairs kept only when both actual and
predicted are strictly positive, yielding `|actual - predicted| / actual`. -/
def pairError (a : ℤ × ℚ) (future : List FuturePoint) : Option ℚ :=
  match future.find? (fun p => p.ds == a.1) with
  | some p =>
    if (0:ℚ) < p.yhat ∧ (0:ℚ) < a.2 then some (|a.2 - p.yhat| / a.2) else none
  | none => none

def percentageErrors (dailyActuals : List (ℤ × ℚ)) (future : List FuturePoint) : List ℚ :=
  dailyActuals.filterMap (fun a => pairError a future)

/-- Lines 208-225: drop percentage errors above 200%, then aggregate with
the median when at least 5 remain, with the mean otherwise; `none` when
every error was dropped (the source keeps its default in that arm). -/
def aggregateReasonable (errs : List ℚ) : Option ℚ :=
  let reasonable := errs.filter (fun e => decide (e ≤ 2))
  if reasonable.isEmpty then none
  else if 5 ≤ reasonable.length then some (medianQ reasonable * 100)
  else some (listMean reasonable * 100)

/-- The live-recalibration strategy; `none` on every arm where the source
keeps its default MAPE. -/
def liveMapeCore (actualRows : List (ℤ × ℚ)) (records : List ForecastRecord) :
    Option ℚ :=
  if actualRows.isEmpty then none
  else
    let dailyActuals := groupSumByDay actualRows
    if records.isEmpty then none
    else
      let recentForecasts := records.filter (fun fr => overlapsB fr.future dailyActuals)
      match recentForecasts.head? with
      | none => none
      | some latest =>
        let comparison := percentageErrors dailyActuals latest.future
        if 3 ≤ comparison.length then aggregateReasonable comparison else none

/-- The MAPE value the source actually reports: the strategy's result, or
the fixed default `11.9` on every fallback arm. -/
def computeLiveMape (actualRows : List (ℤ × ℚ)) (records : List ForecastRecord) : ℚ :=
  (liveMapeCore actualRows records).getD (119/10)

/-- Live-recalibration strategy as the specification words it: join the
actual daily totals with the most recent stored forecast whose date range
overlaps them, keep pairs with both sides strictly positive, drop errors
exceeding 200%, require at least 3 comparable days, aggregate via median
for at least 5 valid samples and via mean otherwise (no aggregate exists
when no valid sample remains). -/
def liveRecalibrationSpec (actualRows : List (ℤ × ℚ)) (records : List ForecastRecord) :
    Option ℚ :=
  let dailyActuals := groupSumByDay actualRows
  match records.find? (fun fr => overlapsB fr.future dailyActuals) with
  | none => none
  | some chosen =>
    let comparison := percentageErrors dailyActuals chosen.future
    if 3 ≤ comparison.length then
      let kept := comparison.filter (fun e => decide (e ≤ 2))
      if kept.isEmpty then none
      else if 5 ≤ kept.length then some (medianQ kept * 100)
      else some (listMean kept * 100)
    else none

/-! ### ModelConfigurator (main.py lines 100-129)

The Prophet constructor arguments plus the `add_seasonality` calls, as a
pure function of the series length. -/

/-- One `model.add_seasonality(...)` registration. -/
structure Seasonality where
  name : String
  period : ℚ
  fourierOrder : ℕ
deriving DecidableEq

/-- The model hyperparameters chosen for a given series length. -/
structure ModelConfig where
  weeklySeasonality : Bool
  yearlySeasonality : Bool
  dailySeasonality : Bool
  intervalWidth : ℚ
  changepointPriorScale : ℚ
  seasonalityMode : String
  seasonalityPriorScale : ℚ
  holidaysPriorScale : ℚ
  extraSeasonalities : List Seasonality
deriving DecidableEq

def configure (n : ℕ) : ModelConfig where
  weeklySeasonality := true
  yearlySeasonality := decide (300 < n)
  dailySeasonality := false
  intervalWidth := 9/10
  changepointPriorScale := 2/25
  seasonalityMode := "additive"
  seasonalityPriorScale := 15
  holidaysPriorScale := 10
  extraSeasonalities :=
    (if 60 < n then [⟨"monthly", 61/2, 6⟩] else []) ++
    (if 120 < n then [⟨"quarterly", 365/4, 4⟩] else []) ++
    (if 180 < n then [⟨"biannual", 365/2, 3⟩, ⟨"weekly_detailed", 7, 4⟩] else [])

/-- Whether an `add_seasonality` component with the given name was
registered. -/
def hasSeasonality (c : ModelConfig) (s : String) : Bool :=
  c.extraSeasonalities.any (fun e => e.name == s)

/-! ### SeriesNormalizer (main.py lines 58-61 and 277-281)

Days are integers.  `aggregateDaily` is the `resample('D').sum()` of the
raw event rows (intra-day timestamps already collapsed to their calendar
day); `fillMissingDays` is the `reindex(date_range(...), fill_value=0)`
inside `clean_and_forecast`.  Both produce one row per day of the closed
interval from the earliest to the latest day. -/

def aggregateDaily (events : List (ℤ × ℚ)) : List (ℤ × ℚ) :=
  match events with
  | [] => []
  | _ :: _ =>
    let lo := listMinZ (events.map Prod.fst)
    let hi := listMaxZ (events.map Prod.fst)
    (List.range (hi - lo + 1).toNat).map (fun k =>
      (lo + k, listSum ((events.filter (fun r => r.1 == lo + k)).map Prod.snd)))

def fillMissingDays (df : List (ℤ × ℚ)) : List (ℤ × ℚ) :=
  match df with
  | [] => []
  | _ :: _ =>
    let lo := listMinZ (df.map Prod.fst)
    let hi := listMaxZ (df.map Prod.fst)
    (List.range (hi - lo + 1).toNat).map (fun k =>
      (lo + k,
        match df.find? (fun r => r.1 == lo + k) with
        | some r => r.2
        | none => 0))

/-! ### ForecastEngine / FallbackLadder (main.py lines 42-56, 131-147,
239-295, 313-355)

`clean_and_forecast` guards on fewer than 21 rows and otherwise runs the
cleaning stages and hands the cleaned values to the external Prophet
capability.  The `predict` argument stands for that external capability
(spec section 6): it receives the series length after gap filling, the
cleaned values and the log-transform flag, and returns the prediction
frame with the inverse transform already applied; its internals are out of
scope here (the transform and its inversion are embedded separately over
`ℝ` below).  `actualRows`/`records` feed the live-recalibration MAPE. -/

def clean_and_forecast (events : List (ℤ × ℚ))
    (predict : ℕ → List ℚ → Bool → List FuturePoint)
    (actualRows : List (ℤ × ℚ)) (records : List ForecastRecord)
    (daysToForecast : ℕ) : ForecastOut :=
  if events.length < 21 then
    { forecast := if 0 < events.length then listMean (events.map Prod.snd) else 100
      mape := 50
      future := [] }
  else
    let df := fillMissingDays events
    let ys := capOutliers (df.map Prod.snd)
    let useLog := decide ((1000:ℚ) < listMaxD ys)
    let pts := predict df.length ys useLog
    let mape := computeLiveMape actualRows records
    let fut := pts.drop (pts.length - daysToForecast)
    { forecast := listMean (fut.map FuturePoint.yhat)
      mape := mape
      future := fut }

/-- Lines 253-295: fetch the full event table (`fetch = none` models a
failed store round-trip, the `except` arm), return the empty dictionary
when no rows exist, otherwise daily-aggregate and forecast. -/
def generate_forecast_with_metrics (fetch : Option (List (ℤ × ℚ)))
    (predict : ℕ → List ℚ → Bool → List FuturePoint)
    (actualRows : List (ℤ × ℚ)) (records : List ForecastRecord)
    (horizon : ℕ) : Option ForecastOut :=
  match fetch with
  | none => none
  | some events =>
    if events.isEmpty then none
    else some (clean_and_forecast (aggregateDaily events) predict actualRows records horizon)

/-- The fixed "minimal fallback" payload of lines 323-335. -/
def fallbackResponse : Response where
  forecast := 100
  mape := 25
  future := []
  metadata :=
    { algorithm := "prophet"
      tuning := "fallback"
      daysForecast := 0
      status := "fallback_used" }

/-- The `/forecast` handler, lines 313-355: an empty or `future`-less
result becomes the fixed fallback payload; otherwise the success metadata
is attached (`tuning` is `"optimized"` only when the Python float `mape`
is truthy, i.e. nonzero, and below 20). -/
def get_forecast (fetch : Option (List (ℤ × ℚ)))
    (predict : ℕ → List ℚ → Bool → List FuturePoint)
    (actualRows : List (ℤ × ℚ)) (records : List ForecastRecord)
    (horizon : ℕ) : Response :=
  match generate_forecast_with_metrics fetch predict actualRows records horizon with
  | none => fallbackResponse
  | some r =>
    if r.future.isEmpty then fallbackResponse
    else
      { forecast := r.forecast
        mape := r.mape
        future := r.future
        metadata :=
          { algorithm := "prophet"
            tuning := if r.mape ≠ 0 ∧ r.mape < 20 then "optimized" else "default"
            daysForecast := r.future.length
            status := "success" } }

/-- A trivial stand-in for the external fit/predict capability, used only
to instantiate counterexamples and witnesses on code paths that never
invoke it. -/
def trivPredict : ℕ → List ℚ → Bool → List FuturePoint := fun _ _ _ => []

/-! ### Transform decision and inversion (main.py lines 90-96 and 142-147)

The only transcendental stage: `log1p` before fitting when the cleaned
maximum exceeds 1000 (recording the original values in `y_orig`), `expm1`
on the three prediction columns afterwards. -/

noncomputable def log1p (x : ℝ) : ℝ := Real.log (1 + x)

noncomputable def expm1 (x : ℝ) : ℝ := Real.exp x - 1

/-- Line 91: the fixed-threshold transform decision. -/
def useLogTransform (ys : List ℚ) : Bool := decide ((1000:ℚ) < listMaxD ys)

/-- Lines 90-96: the transformed series to fit on, together with the
recorded original values (`df['y_orig']`) when the transform fired. -/
noncomputable def transformSeries (ys : List ℚ) : List ℝ × Option (List ℚ) :=
  if useLogTransform ys then (ys.map (fun (y : ℚ) => log1p ((y : ℝ))), some ys)
  else (ys.map (fun (y : ℚ) => ((y : ℝ))), none)

/-- A prediction row over `ℝ`, for the inverse-transform stage. -/
structure FuturePointR where
  ds : ℤ
  yhat : ℝ
  yhatLower : ℝ
  yhatUpper : ℝ

/-- Lines 144-146: `expm1` applied to `yhat`, `yhat_lower`, `yhat_upper`. -/
noncomputable def invertForecastPoint (p : FuturePointR) : FuturePointR where
  ds := p.ds
  yhat := expm1 p.yhat
  yhatLower := expm1 p.yhatLower
  yhatUpper := expm1 p.yhatUpper

/-- Lines 142-147: the inversion runs exactly when the forward transform
did. -/
noncomputable def applyInverseTransform (useLog : Bool) (ps : List FuturePointR) :
    List FuturePointR :=
  if useLog then ps.map invertForecastPoint else ps

/-- Modelled from the spec: the fallback accuracy metric of section 4.6 —
"when no strategy yields a trustworthy estimate, use the coefficient of
variation (stdDev / mean of the cleaned series) as a MAPE proxy, capped at
40, or a fixed constant ... when even that is undefined (mean <= 0)".
This computation appears nowhere in the source; it is written here from
the specification's words so the reported value can be compared with it. -/
noncomputable def specFallbackMape (cleaned : List ℚ) : ℝ :=
  if 0 < listMean cleaned then
    min (Real.sqrt ((varianceQ cleaned : ℝ)) / (listMean cleaned : ℝ) * 100) 40
  else 25

/-! ### Concrete instances used by counterexamples and witnesses -/

/-- Twenty consecutive days with values 1..20. -/
def ex20 : List (ℤ × ℚ) := (List.range 20).map (fun i => ((i : ℤ), (i : ℚ) + 1))

/-- Five consecutive days of events. -/
def shortEvents : List (ℤ × ℚ) := [(0, 10), (1, 20), (2, 30), (3, 40), (4, 50)]

/-- The specification's contamination scenario: 30 days at the median 100
followed by 3 days at 15 times that median. -/
def c4scenario : List ℚ := List.replicate 30 100 ++ List.replicate 3 1500

/-- Fifty days whose most recent seven are 20 times the prior median. -/
def c4tail : List ℚ := List.replicate 43 100 ++ List.replicate 7 2000

/-- Three daily actual totals of 100. -/
def c7actuals : List (ℤ × ℚ) := [(1, 100), (2, 100), (3, 100)]

/-- One stored forecast covering those days, predicting 250 each day
(a 150% error throughout). -/
def c7records : List ForecastRecord :=
  [⟨0, [⟨1, 250, 0, 0⟩, ⟨2, 250, 0, 0⟩, ⟨3, 250, 0, 0⟩]⟩]

/-- Twenty-five consecutive constant days of value 50. -/
def c10series : List (ℤ × ℚ) := (List.range 25).map (fun i => ((i : ℤ), (50 : ℚ)))

/-! ### Claim statements abbreviated as propositions -/

/-- Statement of claim C5 for a single input series: the cap never drops a
value, never increases one, never outputs a negative value; in the
data-quality branch every entry becomes the minimum of itself and
`min(5 * p90, p98)`, otherwise every entry is clipped to
`Q3 + 2 * (Q3 - Q1)` from above and 0 from below. -/
def C5Prop (ys : List ℚ) : Prop :=
  (capOutliers ys).length = ys.length ∧
  (∀ i, i < ys.length →
    (capOutliers ys).getD i 0 ≤ ys.getD i 0 ∧ 0 ≤ (capOutliers ys).getD i 0) ∧
  (20 * medianQ ys < quantileQ ys (95/100) ∧ 0 < medianQ ys →
    ∀ i, i < ys.length →
      (capOutliers ys).getD i 0 =
        min (ys.getD i 0) (min (quantileQ ys (90/100) * 5) (quantileQ ys (98/100)))) ∧
  (¬ (20 * medianQ ys < quantileQ ys (95/100) ∧ 0 < medianQ ys) →
    ∀ i, i < ys.length →
      (capOutliers ys).getD i 0 =
        min (ys.getD i 0)
          (quantileQ ys (3/4) + 2 * (quantileQ ys (3/4) - quantileQ ys (1/4))))

/-- Statement of claim C9 for a series and a prediction row: the transform
fires exactly when the cleaned maximum exceeds 1000, the original values
are recorded when it fires, the forward/inverse cycle restores every
value, the inversion applies `expm1` to all three columns, and it
preserves the bound ordering. -/
def C9Prop (ys : List ℚ) (p : FuturePointR) : Prop :=
  (useLogTransform ys = true ↔ (1000:ℚ) < listMaxD ys) ∧
  (useLogTransform ys = true → (transformSeries ys).2 = some ys) ∧
  (useLogTransform ys = true →
    (transformSeries ys).1.map expm1 = ys.map (fun (y : ℚ) => ((y : ℝ)))) ∧
  ((invertForecastPoint p).yhat = expm1 p.yhat ∧
    (invertForecastPoint p).yhatLower = expm1 p.yhatLower ∧
    (invertForecastPoint p).yhatUpper = expm1 p.yhatUpper) ∧
  (applyInverseTransform true [p] = [invertForecastPoint p]) ∧
  ((invertForecastPoint p).yhatLower ≤ (invertForecastPoint p).yhat ∧
    (invertForecastPoint p).yhat ≤ (invertForecastPoint p).yhatUpper)

/-! ### Helper lemmas: sums, means and quantiles -/

theorem le_listSum (l : List ℚ) (lo : ℚ) (h : ∀ x ∈ l, lo ≤ x) :
    lo * l.length ≤ listSum l := by
  induction l with
  | nil => simp [listSum]
  | cons x xs ih =>
    have hx : lo ≤ x := h x (by simp)
    have hxs : lo * xs.length ≤ listSum xs := ih (fun y hy => h y (by simp [hy]))
    simp only [listSum, List.foldr_cons, List.length_cons] at *
    push_cast
    nlinarith

theorem listSum_le (l : List ℚ) (hi : ℚ) (h : ∀ x ∈ l, x ≤ hi) :
    listSum l ≤ hi * l.length := by
  induction l with
  | nil => simp [listSum]
  | cons x xs ih =>
    have hx : x ≤ hi := h x (by simp)
    have hxs : listSum xs ≤ hi * xs.length := ih (fun y hy => h y (by simp [hy]))
    simp only [listSum, List.foldr_cons, List.length_cons] at *
    push_cast
    nlinarith

theorem le_listMean (l : List ℚ) (hne : l ≠ []) (lo : ℚ) (h : ∀ x ∈ l, lo ≤ x) :
    lo ≤ listMean l := by
  have hn : (0:ℚ) < l.length := by
    have := List.length_pos.mpr hne
    exact_mod_cast this
  rw [listMean, le_div_iff₀ hn]
  exact le_listSum l lo h

theorem listMean_le (l : List ℚ) (hne : l ≠ []) (hi : ℚ) (h : ∀ x ∈ l, x ≤ hi) :
    listMean l ≤ hi := by
  have hn : (0:ℚ) < l.length := by
    have := List.length_pos.mpr hne
    exact_mod_cast this
  rw [listMean, div_le_iff₀ hn]
  exact listSum_le l hi h

theorem qIndex_lt (n : ℕ) (q : ℚ) (hn : 1 ≤ n) (hq1 : q ≤ 1) : qIndex n q < n := by
  have h1 : (1:ℚ) ≤ (n:ℚ) := by exact_mod_cast hn
  have hpos : q * ((n:ℚ) - 1) ≤ (n:ℚ) - 1 := by nlinarith
  have hcast : ((n:ℚ) - 1) = (((n:ℤ) - 1 : ℤ) : ℚ) := by push_cast; ring
  have hfl : ⌊q * ((n:ℚ) - 1)⌋ ≤ (n:ℤ) - 1 := by
    calc ⌊q * ((n:ℚ) - 1)⌋ ≤ ⌊((((n:ℤ) - 1 : ℤ)):ℚ)⌋ := by
          apply Int.floor_le_floor
          rw [← hcast]
          exact hpos
      _ = (n:ℤ) - 1 := Int.floor_intCast _
  have := Int.toNat_le_toNat hfl
  unfold qIndex
  omega

theorem qIndex_cast_le (n : ℕ) (q : ℚ) (hn : 1 ≤ n) (hq0 : 0 ≤ q) :
    ((qIndex n q : ℕ) : ℚ) ≤ q * ((n:ℚ) - 1) := by
  have h1 : (1:ℚ) ≤ (n:ℚ) := by exact_mod_cast hn
  have hpos : 0 ≤ q * ((n:ℚ) - 1) := by nlinarith
  have hfl : (0:ℤ) ≤ ⌊q * ((n:ℚ) - 1)⌋ := Int.floor_nonneg.mpr hpos
  unfold qIndex
  rw [show (((⌊q * ((n:ℚ) - 1)⌋).toNat : ℕ) : ℚ) = ((⌊q * ((n:ℚ) - 1)⌋ : ℤ) : ℚ) by
    exact_mod_cast congrArg Int.cast (Int.toNat_of_nonneg hfl)]
  exact Int.floor_le _

theorem qFrac_nonneg (n : ℕ) (q : ℚ) (hn : 1 ≤ n) (hq0 : 0 ≤ q) : 0 ≤ qFrac n q := by
  have := qIndex_cast_le n q hn hq0
  unfold qFrac
  linarith

theorem qFrac_lt_one (n : ℕ) (q : ℚ) (hn : 1 ≤ n) (hq0 : 0 ≤ q) : qFrac n q < 1 := by
  have h1 : (1:ℚ) ≤ (n:ℚ) := by exact_mod_cast hn
  have hpos : 0 ≤ q * ((n:ℚ) - 1) := by nlinarith
  have hfl : (0:ℤ) ≤ ⌊q * ((n:ℚ) - 1)⌋ := Int.floor_nonneg.mpr hpos
  have hlt : q * ((n:ℚ) - 1) < (⌊q * ((n:ℚ) - 1)⌋ : ℚ) + 1 := Int.lt_floor_add_one _
  unfold qFrac qIndex
  rw [show ((((⌊q * ((n:ℚ) - 1)⌋).toNat : ℕ)) : ℚ) = ((⌊q * ((n:ℚ) - 1)⌋ : ℤ) : ℚ) by
    exact_mod_cast congrArg Int.cast (Int.toNat_of_nonneg hfl)]
  linarith

theorem getD_mem_of_lt (xs : List ℚ) (i : ℕ) (d : ℚ) (h : i < xs.length) :
    xs.getD i d ∈ xs := by
  rw [List.getD_eq_getElem _ _ h]
  exact List.getElem_mem h

theorem getD_default_irrel (xs : List ℚ) (i : ℕ) (d : ℚ) (h : i < xs.length) :
    xs.getD i d = xs.getD i 0 := by
  rw [List.getD_eq_getElem _ _ h, List.getD_eq_getElem _ _ h]

theorem quantileSorted_mem_Icc (xs : List ℚ) (hne : xs ≠ []) (lo hi q : ℚ)
    (hlo : ∀ y ∈ xs, lo ≤ y) (hhi : ∀ y ∈ xs, y ≤ hi)
    (hq0 : 0 ≤ q) (hq1 : q ≤ 1) :
    lo ≤ quantileSorted xs q ∧ quantileSorted xs q ≤ hi := by
  have hn : 1 ≤ xs.length := List.length_pos.mpr hne
  have hemp : xs.isEmpty = false := by
    cases xs with
    | nil => exact absurd rfl hne
    | cons x l => rfl
  have hi1 : qIndex xs.length q < xs.length := qIndex_lt _ q hn hq1
  have hf0 : 0 ≤ qFrac xs.length q := qFrac_nonneg _ q hn hq0
  have hf1 : qFrac xs.length q < 1 := qFrac_lt_one _ q hn hq0
  have ha : xs.getD (qIndex xs.length q) 0 ∈ xs := getD_mem_of_lt xs _ 0 hi1
  have halo : lo ≤ xs.getD (qIndex xs.length q) 0 := hlo _ ha
  have hahi : xs.getD (qIndex xs.length q) 0 ≤ hi := hhi _ ha
  have hb : lo ≤ xs.getD (qIndex xs.length q + 1) (xs.getD (qIndex xs.length q) 0) ∧
      xs.getD (qIndex xs.length q + 1) (xs.getD (qIndex xs.length q) 0) ≤ hi := by
    by_cases hlt : qIndex xs.length q + 1 < xs.length
    · have hmem := getD_mem_of_lt xs (qIndex xs.length q + 1)
        (xs.getD (qIndex xs.length q) 0) hlt
      exact ⟨hlo _ hmem, hhi _ hmem⟩
    · rw [List.getD_eq_default _ _ (by omega)]
      exact ⟨halo, hahi⟩
  rw [quantileSorted, hemp]
  simp only [Bool.false_eq_true, if_false]
  constructor
  · nlinarith [hb.1, hb.2]
  · nlinarith [hb.1, hb.2]

theorem getD_mono_of_sorted (xs : List ℚ) (hs : List.Sorted (· ≤ ·) xs)
    {i j : ℕ} (hij : i ≤ j) (hj : j < xs.length) : xs.getD i 0 ≤ xs.getD j 0 := by
  have hilt : i < xs.length := lt_of_le_of_lt hij hj
  rw [List.getD_eq_getElem _ _ hilt, List.getD_eq_getElem _ _ hj]
  have := hs.rel_get_of_le (a := ⟨i, hilt⟩) (b := ⟨j, hj⟩) (by exact hij)
  simpa using this

theorem qIndex_mono (n : ℕ) {q₁ q₂ : ℚ} (h12 : q₁ ≤ q₂) (hn : 1 ≤ n) :
    qIndex n q₁ ≤ qIndex n q₂ := by
  have h1 : (1:ℚ) ≤ (n:ℚ) := by exact_mod_cast hn
  have : q₁ * ((n:ℚ) - 1) ≤ q₂ * ((n:ℚ) - 1) := by nlinarith
  exact Int.toNat_le_toNat (Int.floor_le_floor this)

theorem quantileSorted_mono (xs : List ℚ) (hs : List.Sorted (· ≤ ·) xs)
    (q₁ q₂ : ℚ) (h0 : 0 ≤ q₁) (h12 : q₁ ≤ q₂) (h1 : q₂ ≤ 1) :
    quantileSorted xs q₁ ≤ quantileSorted xs q₂ := by
  by_cases hne : xs = []
  · subst hne; simp [quantileSorted]
  have hn : 1 ≤ xs.length := List.length_pos.mpr hne
  have hemp : xs.isEmpty = false := by simp [List.isEmpty_iff, hne]
  have hq20 : 0 ≤ q₂ := le_trans h0 h12
  have hq11 : q₁ ≤ 1 := le_trans h12 h1
  have hi1 : qIndex xs.length q₁ < xs.length := qIndex_lt _ q₁ hn hq11
  have hi2 : qIndex xs.length q₂ < xs.length := qIndex_lt _ q₂ hn h1
  have hf10 : 0 ≤ qFrac xs.length q₁ := qFrac_nonneg _ q₁ hn h0
  have hf11 : qFrac xs.length q₁ < 1 := qFrac_lt_one _ q₁ hn h0
  have hf20 : 0 ≤ qFrac xs.length q₂ := qFrac_nonneg _ q₂ hn hq20
  have hf21 : qFrac xs.length q₂ < 1 := qFrac_lt_one _ q₂ hn hq20
  have hii : qIndex xs.length q₁ ≤ qIndex xs.length q₂ := qIndex_mono _ h12 hn
  rw [quantileSorted, quantileSorted, hemp]
  simp only [Bool.false_eq_true, if_false]
  rcases eq_or_lt_of_le hii with heq | hlt
  · -- same bracket: the interpolated value is monotone in the fraction
    rw [← heq]
    have hfle : qFrac xs.length q₁ ≤ qFrac xs.length q₂ := by
      unfold qFrac
      rw [← heq]
      have h1' : (1:ℚ) ≤ (xs.length:ℚ) := by exact_mod_cast hn
      nlinarith
    have hab : xs.getD (qIndex xs.length q₁) 0 ≤
        xs.getD (qIndex xs.length q₁ + 1) (xs.getD (qIndex xs.length q₁) 0) := by
      by_cases hlt2 : qIndex xs.length q₁ + 1 < xs.length
      · rw [getD_default_irrel xs (qIndex xs.length q₁ + 1) _ hlt2]
        exact getD_mono_of_sorted xs hs (Nat.le_succ _) hlt2
      · have hge : xs.length ≤ qIndex xs.length q₁ + 1 := by omega
        rw [List.getD_eq_default _ _ hge]
    nlinarith
  · -- the first bracket lies strictly below the second
    have hb1 : qIndex xs.length q₁ + 1 < xs.length := by omega
    have hv1 : xs.getD (qIndex xs.length q₁) 0 +
        qFrac xs.length q₁ *
          (xs.getD (qIndex xs.length q₁ + 1) (xs.getD (qIndex xs.length q₁) 0) -
            xs.getD (qIndex xs.length q₁) 0) ≤
        xs.getD (qIndex xs.length q₁ + 1) (xs.getD (qIndex xs.length q₁) 0) := by
      have hab : xs.getD (qIndex xs.length q₁) 0 ≤
          xs.getD (qIndex xs.length q₁ + 1) (xs.getD (qIndex xs.length q₁) 0) := by
        rw [getD_default_irrel xs (qIndex xs.length q₁ + 1) _ hb1]
        exact getD_mono_of_sorted xs hs (Nat.le_succ _) hb1
      nlinarith
    have hmid : xs.getD (qIndex xs.length q₁ + 1) (xs.getD (qIndex xs.length q₁) 0) ≤
        xs.getD (qIndex xs.length q₂) 0 := by
      rw [getD_default_irrel xs (qIndex xs.length q₁ + 1) _ hb1]
      exact getD_mono_of_sorted xs hs (by omega) hi2
    have hv2 : xs.getD (qIndex xs.length q₂) 0 ≤
        xs.getD (qIndex xs.length q₂) 0 +
        qFrac xs.length q₂ *
          (xs.getD (qIndex xs.length q₂ + 1) (xs.getD (qIndex xs.length q₂) 0) -
            xs.getD (qIndex xs.length q₂) 0) := by
      have hab : xs.getD (qIndex xs.length q₂) 0 ≤
          xs.getD (qIndex xs.length q₂ + 1) (xs.getD (qIndex xs.length q₂) 0) := by
        by_cases hlt2 : qIndex xs.length q₂ + 1 < xs.length
        · rw [getD_default_irrel xs (qIndex xs.length q₂ + 1) _ hlt2]
          exact getD_mono_of_sorted xs hs (Nat.le_succ _) hlt2
        · have hge : xs.length ≤ qIndex xs.length q₂ + 1 := by omega
          rw [List.getD_eq_default _ _ hge]
      nlinarith
    linarith

theorem sortQ_sorted (l : List ℚ) : List.Sorted (· ≤ ·) (sortQ l) :=
  List.sorted_insertionSort _ l

theorem mem_sortQ (l : List ℚ) {x : ℚ} : x ∈ sortQ l ↔ x ∈ l :=
  (List.perm_insertionSort _ l).mem_iff

theorem sortQ_eq_nil_iff (l : List ℚ) : sortQ l = [] ↔ l = [] := by
  constructor
  · intro h
    have hp : (sortQ l).Perm l := List.perm_insertionSort _ l
    rw [h] at hp
    exact hp.symm.eq_nil
  · intro h; subst h; rfl

theorem quantileSorted_lower (xs : List ℚ) (hne : xs ≠ []) (lo q : ℚ)
    (hlo : ∀ y ∈ xs, lo ≤ y) (hq0 : 0 ≤ q) (hq1 : q ≤ 1) :
    lo ≤ quantileSorted xs q := by
  have hn : 1 ≤ xs.length := List.length_pos.mpr hne
  have hemp : xs.isEmpty = false := by simp [List.isEmpty_iff, hne]
  have hi1 : qIndex xs.length q < xs.length := qIndex_lt _ q hn hq1
  have hf0 : 0 ≤ qFrac xs.length q := qFrac_nonneg _ q hn hq0
  have hf1 : qFrac xs.length q < 1 := qFrac_lt_one _ q hn hq0
  have ha : xs.getD (qIndex xs.length q) 0 ∈ xs := getD_mem_of_lt xs _ 0 hi1
  have halo : lo ≤ xs.getD (qIndex xs.length q) 0 := hlo _ ha
  have hb : lo ≤ xs.getD (qIndex xs.length q + 1) (xs.getD (qIndex xs.length q) 0) := by
    by_cases hlt : qIndex xs.length q + 1 < xs.length
    · exact hlo _ (getD_mem_of_lt xs (qIndex xs.length q + 1) _ hlt)
    · have hge : xs.length ≤ qIndex xs.length q + 1 := by omega
      rw [List.getD_eq_default _ _ hge]
      exact halo
  rw [quantileSorted, hemp]
  simp only [Bool.false_eq_true, if_false]
  nlinarith

theorem quantileQ_mem_Icc (l : List ℚ) (hne : l ≠ []) (lo hi q : ℚ)
    (hlo : ∀ y ∈ l, lo ≤ y) (hhi : ∀ y ∈ l, y ≤ hi)
    (hq0 : 0 ≤ q) (hq1 : q ≤ 1) :
    lo ≤ quantileQ l q ∧ quantileQ l q ≤ hi := by
  have hsne : sortQ l ≠ [] := fun h => hne ((sortQ_eq_nil_iff l).mp h)
  exact quantileSorted_mem_Icc (sortQ l) hsne lo hi q
    (fun y hy => hlo y ((mem_sortQ l).mp hy))
    (fun y hy => hhi y ((mem_sortQ l).mp hy)) hq0 hq1

theorem quantileQ_nonneg (l : List ℚ) (hne : l ≠ []) (q : ℚ)
    (hlo : ∀ y ∈ l, 0 ≤ y) (hq0 : 0 ≤ q) (hq1 : q ≤ 1) : 0 ≤ quantileQ l q := by
  have hsne : sortQ l ≠ [] := fun h => hne ((sortQ_eq_nil_iff l).mp h)
  exact quantileSorted_lower (sortQ l) hsne 0 q
    (fun y hy => hlo y ((mem_sortQ l).mp hy)) hq0 hq1

theorem quantileQ_mono (l : List ℚ) (q₁ q₂ : ℚ)
    (h0 : 0 ≤ q₁) (h12 : q₁ ≤ q₂) (h1 : q₂ ≤ 1) :
    quantileQ l q₁ ≤ quantileQ l q₂ :=
  quantileSorted_mono (sortQ l) (sortQ_sorted l) q₁ q₂ h0 h12 h1

theorem getD_map_eq (f : ℚ → ℚ) (ys : List ℚ) (i : ℕ) (hi : i < ys.length) :
    (ys.map f).getD i 0 = f (ys.getD i 0) := by
  have hmi : i < (ys.map f).length := by simpa using hi
  rw [List.getD_eq_getElem _ _ hmi, List.getElem_map, List.getD_eq_getElem _ _ hi]

/-- C5: the distribution-shape cap caps to `min(5 * p90, p98)` in the
data-quality branch, clips to `[0, Q3 + 2 * IQR]` otherwise, and in both
branches drops no value, increases no value, and outputs no negative
value. -/
theorem C5_distribution_cap (ys : List ℚ) (hpos : ∀ y ∈ ys, 0 ≤ y) : C5Prop ys := by
  by_cases hcond : 20 * medianQ ys < quantileQ ys (95/100) ∧ 0 < medianQ ys
  · have hcap : capOutliers ys = ys.map (fun y =>
        if min (quantileQ ys (90/100) * 5) (quantileQ ys (98/100)) < y
        then min (quantileQ ys (90/100) * 5) (quantileQ ys (98/100)) else y) := by
      simp only [capOutliers]
      rw [if_pos hcond]
    refine ⟨?_, ?_, ?_, ?_⟩
    · rw [hcap]; simp
    · intro i hi
      have hne : ys ≠ [] := by
        intro h; subst h; simp at hi
      have hy0 : 0 ≤ ys.getD i 0 := hpos _ (getD_mem_of_lt ys i 0 hi)
      have h90 := quantileQ_nonneg ys hne (90/100) hpos (by norm_num) (by norm_num)
      have h98 := quantileQ_nonneg ys hne (98/100) hpos (by norm_num) (by norm_num)
      have hcap0 : 0 ≤ min (quantileQ ys (90/100) * 5) (quantileQ ys (98/100)) :=
        le_min (by linarith) h98
      rw [hcap, getD_map_eq _ _ _ hi]
      constructor
      · split
        · next h => exact le_of_lt h
        · next h => exact le_refl _
      · split
        · next h => exact hcap0
        · next h => exact hy0
    · intro _ i hi
      rw [hcap, getD_map_eq _ _ _ hi]
      split
      · next h => exact (min_eq_right (le_of_lt h)).symm
      · next h => exact (min_eq_left (not_lt.mp h)).symm
    · intro h
      exact absurd hcond h
  · have hcap : capOutliers ys = ys.map (fun y =>
        min (max y 0) (quantileQ ys (3/4) + 2 * (quantileQ ys (3/4) - quantileQ ys (1/4)))) := by
      simp only [capOutliers]
      rw [if_neg hcond]
    refine ⟨?_, ?_, ?_, ?_⟩
    · rw [hcap]; simp
    · intro i hi
      have hne : ys ≠ [] := by
        intro h; subst h; simp at hi
      have hy0 : 0 ≤ ys.getD i 0 := hpos _ (getD_mem_of_lt ys i 0 hi)
      have hq3 := quantileQ_nonneg ys hne (3/4) hpos (by norm_num) (by norm_num)
      have hq13 : quantileQ ys (1/4) ≤ quantileQ ys (3/4) :=
        quantileQ_mono ys (1/4) (3/4) (by norm_num) (by norm_num) (by norm_num)
      have hub : 0 ≤ quantileQ ys (3/4) + 2 * (quantileQ ys (3/4) - quantileQ ys (1/4)) := by
        linarith
      rw [hcap, getD_map_eq _ _ _ hi, max_eq_left hy0]
      exact ⟨min_le_left _ _, le_min hy0 hub⟩
    · intro h
      exact absurd h hcond
    · intro _ i hi
      have hy0 : 0 ≤ ys.getD i 0 := hpos _ (getD_mem_of_lt ys i 0 hi)
      rw [hcap, getD_map_eq _ _ _ hi, max_eq_left hy0]

/-- Witness for C5 at the concrete series `[0, 5, 10]`. -/
theorem C5_witness : (∀ y ∈ ([0, 5, 10] : List ℚ), 0 ≤ y) ∧ C5Prop [0, 5, 10] :=
  ⟨by norm_num, C5_distribution_cap [0, 5, 10] (by norm_num)⟩

/-! ### FallbackLadder behaviour: claims C1, C2, C3 -/

theorem clean_and_forecast_scarce (events : List (ℤ × ℚ))
    (predict : ℕ → List ℚ → Bool → List FuturePoint)
    (actualRows : List (ℤ × ℚ)) (records : List ForecastRecord) (d : ℕ)
    (h1 : 0 < events.length) (h2 : events.length < 21) :
    clean_and_forecast events predict actualRows records d =
      { forecast := listMean (events.map Prod.snd), mape := 50, future := [] } := by
  unfold clean_and_forecast
  rw [if_pos h2, if_pos h1]

/-- C3: a series of fewer than 21 days produces the degraded result —
mean of the available values, MAPE exactly 50, no future points — and
never an error. -/
theorem C3_insufficient_history (events : List (ℤ × ℚ))
    (predict : ℕ → List ℚ → Bool → List FuturePoint)
    (actualRows : List (ℤ × ℚ)) (records : List ForecastRecord) (d : ℕ)
    (h1 : 1 ≤ events.length) (h2 : events.length < 21) :
    clean_and_forecast events predict actualRows records d =
      { forecast := listMean (events.map Prod.snd), mape := 50, future := [] } :=
  clean_and_forecast_scarce events predict actualRows records d h1 h2

/-- Witness for C3: a series of exactly 20 days yields
`futurePoints = []`, `mape = 50`, `forecast = mean(values)`. -/
theorem C3_witness :
    1 ≤ ex20.length ∧ ex20.length < 21 ∧
    clean_and_forecast ex20 trivPredict [] [] 14 =
      { forecast := listMean (ex20.map Prod.snd), mape := 50, future := [] } :=
  ⟨by decide, by decide, C3_insufficient_history ex20 trivPredict [] [] 14 (by decide) (by decide)⟩

/-- C1 counterexample: with an event store yielding no rows at all, the
endpoint's payload is tagged `status = "fallback_used"` and carries the
fabricated fixed forecast 100 with MAPE 25 — not a distinct
missing-data signal. -/
theorem C1_counterexample :
    (get_forecast (some []) trivPredict [] [] 30).metadata.status = "fallback_used" ∧
    (get_forecast (some []) trivPredict [] [] 30).forecast = 100 ∧
    (get_forecast (some []) trivPredict [] [] 30).mape = 25 :=
  ⟨rfl, rfl, rfl⟩

/-- C1 amended: when the event store yields no rows the endpoint returns
exactly the fixed fallback payload — the same `status = "fallback_used"`
signal produced for a fit failure. -/
theorem C1_amended (predict : ℕ → List ℚ → Bool → List FuturePoint)
    (actualRows : List (ℤ × ℚ)) (records : List ForecastRecord) (horizon : ℕ) :
    get_forecast (some []) predict actualRows records horizon = fallbackResponse :=
  rfl

/-- C2 counterexample: five days of events reach the HTTP boundary as the
fixed-constant fallback (forecast 100, `status = "fallback_used"`), even
though the scarce-data degraded result (here MAPE 50) was computed
internally. -/
theorem C2_counterexample :
    (get_forecast (some shortEvents) trivPredict [] [] 30).metadata.status = "fallback_used" ∧
    (get_forecast (some shortEvents) trivPredict [] [] 30).forecast = 100 ∧
    (get_forecast (some shortEvents) trivPredict [] [] 30).mape = 25 ∧
    (clean_and_forecast (aggregateDaily shortEvents) trivPredict [] [] 30).mape = 50 := by
  refine ⟨?_, ?_, ?_, ?_⟩ <;> with_unfolding_all rfl

/-- C2 amended: an input cleaning to between 1 and 20 usable days makes
`clean_and_forecast` build the scarce-data degraded result, but the
endpoint discards it — its empty `future` list fails the no-forecast
check — and delivers the fixed fallback payload instead. -/
theorem C2_amended (events : List (ℤ × ℚ))
    (predict : ℕ → List ℚ → Bool → List FuturePoint)
    (actualRows : List (ℤ × ℚ)) (records : List ForecastRecord) (horizon : ℕ)
    (h1 : 1 ≤ (aggregateDaily events).length)
    (h2 : (aggregateDaily events).length < 21) :
    get_forecast (some events) predict actualRows records horizon = fallbackResponse ∧
    clean_and_forecast (aggregateDaily events) predict actualRows records horizon =
      { forecast := listMean ((aggregateDaily events).map Prod.snd)
        mape := 50
        future := [] } := by
  have hne : events ≠ [] := by
    intro h
    subst h
    simp [aggregateDaily] at h1
  have hemp : events.isEmpty = false := by simp [List.isEmpty_iff, hne]
  have hcf := clean_and_forecast_scarce (aggregateDaily events) predict actualRows records
    horizon h1 h2
  refine ⟨?_, hcf⟩
  have hgen : generate_forecast_with_metrics (some events) predict actualRows records horizon =
      some (clean_and_forecast (aggregateDaily events) predict actualRows records horizon) := by
    show (if events.isEmpty = true then none
      else some (clean_and_forecast (aggregateDaily events) predict actualRows records horizon)) =
      some (clean_and_forecast (aggregateDaily events) predict actualRows records horizon)
    rw [hemp]
    rfl
  unfold get_forecast
  rw [hgen, hcf]
  rfl

/-- Witness for C2 at the concrete five-day input. -/
theorem C2_witness :
    1 ≤ (aggregateDaily shortEvents).length ∧ (aggregateDaily shortEvents).length < 21 ∧
    (get_forecast (some shortEvents) trivPredict [] [] 30 = fallbackResponse ∧
      clean_and_forecast (aggregateDaily shortEvents) trivPredict [] [] 30 =
        { forecast := listMean ((aggregateDaily shortEvents).map Prod.snd)
          mape := 50
          future := [] }) :=
  ⟨by decide, by decide, C2_amended shortEvents trivPredict [] [] 30 (by decide) (by decide)⟩


/-! ### OutlierGuard contamination scan: claim C4 -/

theorem length_takeWhile_le_q (p : ℚ → Bool) (l : List ℚ) :
    (l.takeWhile p).length ≤ l.length := by
  induction l with
  | nil => simp
  | cons x xs ih =>
    rw [List.takeWhile_cons]
    split
    · simpa using ih
    · simp

theorem contaminationCount_le (ys : List ℚ) (h10 : 10 ≤ ys.length) :
    contaminationCount ys ≤ min 7 (ys.length / 10) := by
  have hd0 : ¬ (min 7 (ys.length / 10) = 0) := by omega
  have hd : min 7 (ys.length / 10) ≤ ys.length :=
    le_trans (min_le_right _ _) (Nat.div_le_self _ _)
  have key : ∀ b : ℚ, (if 0 < b then
      (((if min 7 (ys.length / 10) = 0 then ys
          else ys.drop (ys.length - min 7 (ys.length / 10))).reverse.takeWhile (fun v =>
        decide (10 < v / b) || decide (v / b < 1/10))).length) else 0) ≤
      min 7 (ys.length / 10) := by
    intro b
    rw [if_neg hd0]
    split
    · calc ((ys.drop (ys.length - min 7 (ys.length / 10))).reverse.takeWhile (fun v =>
            decide (10 < v / b) || decide (v / b < 1/10))).length
          ≤ (ys.drop (ys.length - min 7 (ys.length / 10))).reverse.length :=
            length_takeWhile_le_q _ _
        _ = (ys.drop (ys.length - min 7 (ys.length / 10))).length := List.length_reverse _
        _ = ys.length - (ys.length - min 7 (ys.length / 10)) := List.length_drop _ _
        _ = min 7 (ys.length / 10) := by omega
    · exact Nat.zero_le _
  unfold contaminationCount
  split
  · exact key _
  · exact Nat.zero_le _

/-- C4 counterexample: a 50-day series whose last 7 days are each 20
times the prior-median baseline — the claim demands that this entire
contiguous contaminated tail be truncated (result of 43 days), but the
scan examines only the most recent `min(7, 50 // 10) = 5` days and keeps
45 days, two of them extreme. -/
theorem C4_counterexample :
    10 < (2000:ℚ) / medianQ (c4tail.take (c4tail.length - 7)) ∧
    c4tail.drop 43 = List.replicate 7 (2000:ℚ) ∧
    c4tail.length = 50 ∧
    contaminationScan c4tail = c4tail.take 45 := by
  refine ⟨?_, ?_, ?_, ?_⟩
  · have hmed : medianQ (c4tail.take (c4tail.length - 7)) = 100 := by
      with_unfolding_all rfl
    rw [hmed]
    norm_num
  · with_unfolding_all rfl
  · rfl
  · have h1 : contaminationScan c4tail =
        List.replicate 43 (100:ℚ) ++ List.replicate 2 2000 := by
      with_unfolding_all rfl
    have h2 : c4tail.take 45 =
        List.replicate 43 (100:ℚ) ++ List.replicate 2 2000 := by
      with_unfolding_all rfl
    exact h1.trans h2.symm

/-- C4 amended: for series of at least 10 days the scan truncates a
contiguous tail of at most `min(7, len // 10)` days — not the entire
extreme tail — and on the specification's scenario (3 recent days at 15
times the prior 30-day median) it drops exactly those 3 days. -/
theorem C4_amended :
    (∀ ys : List ℚ, 10 ≤ ys.length →
      contaminationCount ys ≤ min 7 (ys.length / 10) ∧
      contaminationScan ys = ys.take (ys.length - contaminationCount ys)) ∧
    contaminationScan c4scenario = c4scenario.take 30 ∧
    c4scenario.length = 33 := by
  refine ⟨fun ys h10 => ⟨contaminationCount_le ys h10, rfl⟩, ?_, rfl⟩
  have h1 : contaminationScan c4scenario = List.replicate 30 (100:ℚ) := by
    with_unfolding_all rfl
  have h2 : c4scenario.take 30 = List.replicate 30 (100:ℚ) := by
    with_unfolding_all rfl
  exact h1.trans h2.symm

/-- Witness for C4's amended statement at the scenario series. -/
theorem C4_witness :
    10 ≤ c4scenario.length ∧
    (contaminationCount c4scenario ≤ min 7 (c4scenario.length / 10) ∧
      contaminationScan c4scenario =
        c4scenario.take (c4scenario.length - contaminationCount c4scenario)) :=
  ⟨by decide, C4_amended.1 c4scenario (by decide)⟩

/-! ### ModelConfigurator seasonality policy: claim C8 -/

theorem hasSeasonality_configure (n : ℕ) (s : String) :
    hasSeasonality (configure n) s =
      ((decide (60 < n) && ("monthly" == s)) ||
       (decide (120 < n) && ("quarterly" == s)) ||
       (decide (180 < n) && (("biannual" == s) || ("weekly_detailed" == s)))) := by
  by_cases h1 : 60 < n <;> by_cases h2 : 120 < n <;> by_cases h3 : 180 < n <;>
    simp [configure, hasSeasonality, h1, h2, h3, Bool.or_assoc]

/-- C8 counterexample: the claim's threshold examples are off by one —
at length 60 no monthly component is registered and at length 120 no
quarterly component is registered (the source conditions are strict
`>` comparisons), while 61 and 121 do receive them. -/
theorem C8_counterexample :
    hasSeasonality (configure 60) "monthly" = false ∧
    hasSeasonality (configure 120) "quarterly" = false ∧
    hasSeasonality (configure 61) "monthly" = true ∧
    hasSeasonality (configure 121) "quarterly" = true := by
  refine ⟨?_, ?_, ?_, ?_⟩ <;> rfl

/-- C8 amended: the configuration is a deterministic pure function of
length; yearly iff `> 300`, monthly iff `> 60`, quarterly iff `> 120`,
biannual and detailed-weekly iff `> 180` (so 60 → no monthly, 61 →
monthly; 120 → no quarterly, 121 → quarterly); all seasonal flags are
monotone in the length. -/
theorem C8_amended :
    (∀ n m : ℕ, n = m → configure n = configure m) ∧
    (∀ n, (configure n).yearlySeasonality = true ↔ 300 < n) ∧
    (∀ n, hasSeasonality (configure n) "monthly" = true ↔ 60 < n) ∧
    (∀ n, hasSeasonality (configure n) "quarterly" = true ↔ 120 < n) ∧
    (∀ n, hasSeasonality (configure n) "biannual" = true ↔ 180 < n) ∧
    (∀ n, hasSeasonality (configure n) "weekly_detailed" = true ↔ 180 < n) ∧
    (∀ s : String, ∀ n m : ℕ, n ≤ m → hasSeasonality (configure n) s = true →
      hasSeasonality (configure m) s = true) ∧
    (∀ n m : ℕ, n ≤ m → (configure n).yearlySeasonality = true →
      (configure m).yearlySeasonality = true) := by
  refine ⟨?_, ?_, ?_, ?_, ?_, ?_, ?_, ?_⟩
  · intro n m h
    rw [h]
  · intro n
    simp [configure]
  · intro n
    rw [hasSeasonality_configure]
    simp
  · intro n
    rw [hasSeasonality_configure]
    simp
  · intro n
    rw [hasSeasonality_configure]
    simp
  · intro n
    rw [hasSeasonality_configure]
    simp
  · intro s n m hnm h
    rw [hasSeasonality_configure] at h ⊢
    simp only [Bool.or_eq_true, Bool.and_eq_true, decide_eq_true_eq] at h ⊢
    rcases h with (⟨hn, hs⟩ | ⟨hn, hs⟩) | ⟨hn, hs⟩
    · exact Or.inl (Or.inl ⟨by omega, hs⟩)
    · exact Or.inl (Or.inr ⟨by omega, hs⟩)
    · exact Or.inr ⟨by omega, hs⟩
  · intro n m hnm h
    simp only [configure, decide_eq_true_eq] at h ⊢
    omega

/-- Witness for C8's amended statement at lengths 61 and 300. -/
theorem C8_witness :
    (hasSeasonality (configure 61) "monthly" = true ↔ 60 < 61) ∧
    ((configure 300).yearlySeasonality = true ↔ 300 < 300) :=
  ⟨C8_amended.2.2.1 61, C8_amended.2.1 300⟩

/-! ### AccuracyValidator live recalibration: claim C6 -/

theorem head_filter_eq_find (p : ForecastRecord → Bool) (l : List ForecastRecord) :
    (l.filter p).head? = l.find? p := by
  induction l with
  | nil => rfl
  | cons x xs ih =>
    by_cases hp : p x <;> simp [List.filter_cons, List.find?_cons, hp, ih]

/-- C6: the source's live-recalibration strategy coincides, on every
store response, with the strategy as the specification words it — join
the daily actual totals with the most recent overlapping stored
forecast, keep strictly positive pairs, drop errors above 200%, demand
at least 3 comparable days, aggregate by median for 5 or more valid
samples and by mean otherwise. -/
theorem C6_live_recalibration (actualRows : List (ℤ × ℚ)) (records : List ForecastRecord) :
    liveMapeCore actualRows records = liveRecalibrationSpec actualRows records := by
  unfold liveMapeCore liveRecalibrationSpec
  simp only []
  by_cases ha : actualRows.isEmpty
  · rw [if_pos ha]
    have ha' : actualRows = [] := List.isEmpty_iff.mp ha
    subst ha'
    cases hfind : records.find? (fun fr => overlapsB fr.future (groupSumByDay [])) with
    | none => rfl
    | some chosen =>
      have hpe : percentageErrors (groupSumByDay []) chosen.future = [] := rfl
      simp [hpe]
  · rw [if_neg ha]
    by_cases hr : records.isEmpty
    · rw [if_pos hr]
      have hr' : records = [] := List.isEmpty_iff.mp hr
      subst hr'
      rfl
    · rw [if_neg hr]
      rw [head_filter_eq_find]
      cases hfind : records.find? (fun fr => overlapsB fr.future (groupSumByDay actualRows)) with
      | none => rfl
      | some chosen =>
        simp only [aggregateReasonable]

/-- Witness for C6 at a concrete store response. -/
theorem C6_witness :
    liveMapeCore c7actuals c7records = liveRecalibrationSpec c7actuals c7records :=
  C6_live_recalibration c7actuals c7records

/-! ### AccuracyValidator MAPE range: claim C7 -/

theorem percentageErrors_nonneg (dailyActuals : List (ℤ × ℚ)) (future : List FuturePoint) :
    ∀ e ∈ percentageErrors dailyActuals future, 0 ≤ e := by
  intro e he
  unfold percentageErrors at he
  obtain ⟨a, _, hfa⟩ := List.mem_filterMap.mp he
  unfold pairError at hfa
  cases hp : future.find? (fun p => p.ds == a.1) with
  | none =>
    simp only [hp] at hfa
    exact absurd hfa (by simp)
  | some p =>
    simp only [hp] at hfa
    by_cases hc : (0:ℚ) < p.yhat ∧ (0:ℚ) < a.2
    · rw [if_pos hc] at hfa
      have he' := Option.some.inj hfa
      rw [← he']
      exact div_nonneg (abs_nonneg _) (le_of_lt hc.2)
    · rw [if_neg hc] at hfa
      exact absurd hfa (by simp)

theorem aggregateReasonable_bounds (errs : List ℚ) (v : ℚ)
    (hnn : ∀ e ∈ errs, 0 ≤ e) (h : aggregateReasonable errs = some v) :
    0 ≤ v ∧ v ≤ 200 := by
  unfold aggregateReasonable at h
  by_cases hk : (errs.filter (fun e => decide (e ≤ 2))).isEmpty
  · rw [if_pos hk] at h
    exact absurd h (by simp)
  · rw [if_neg hk] at h
    have hne : errs.filter (fun e => decide (e ≤ 2)) ≠ [] := by
      intro hh
      exact hk (by rw [hh]; rfl)
    have hlo : ∀ e ∈ errs.filter (fun e => decide (e ≤ 2)), 0 ≤ e :=
      fun e he => hnn e (List.mem_filter.mp he).1
    have hhi : ∀ e ∈ errs.filter (fun e => decide (e ≤ 2)), e ≤ 2 := by
      intro e he
      have := (List.mem_filter.mp he).2
      simpa using this
    split at h
    · have hv := Option.some.inj h
      have hmed : 0 ≤ medianQ (errs.filter (fun e => decide (e ≤ 2))) ∧
          medianQ (errs.filter (fun e => decide (e ≤ 2))) ≤ 2 :=
        quantileQ_mem_Icc (errs.filter (fun e => decide (e ≤ 2))) hne 0 2 (1/2)
          hlo hhi (by norm_num) (by norm_num)
      constructor <;> [nlinarith [hmed.1]; nlinarith [hmed.2]]
    · have hv := Option.some.inj h
      have hm1 := le_listMean (errs.filter (fun e => decide (e ≤ 2))) hne 0 hlo
      have hm2 := listMean_le (errs.filter (fun e => decide (e ≤ 2))) hne 2 hhi
      constructor <;> [nlinarith; nlinarith]

theorem liveMapeCore_bounds (actualRows : List (ℤ × ℚ)) (records : List ForecastRecord)
    (v : ℚ) (h : liveMapeCore actualRows records = some v) : 0 ≤ v ∧ v ≤ 200 := by
  unfold liveMapeCore at h
  simp only [] at h
  by_cases ha : actualRows.isEmpty
  · rw [if_pos ha] at h
    exact absurd h (by simp)
  · rw [if_neg ha] at h
    by_cases hr : records.isEmpty
    · rw [if_pos hr] at h
      exact absurd h (by simp)
    · rw [if_neg hr] at h
      cases hhead : (records.filter
          (fun fr => overlapsB fr.future (groupSumByDay actualRows))).head? with
      | none => rw [hhead] at h; exact absurd h (by simp)
      | some latest =>
        rw [hhead] at h
        simp only [] at h
        split at h
        · exact aggregateReasonable_bounds _ v
            (percentageErrors_nonneg (groupSumByDay actualRows) latest.future) h
        · exact absurd h (by simp)

/-- C7 counterexample: three comparable days, each with a 150% error
(all kept, since only errors above 200% are dropped), produce a reported
MAPE of 150 — outside `[0, 100]`. -/
theorem C7_counterexample :
    computeLiveMape c7actuals c7records = 150 ∧
    ¬ (computeLiveMape c7actuals c7records ≤ 100) := by
  have h : computeLiveMape c7actuals c7records = 150 := by with_unfolding_all rfl
  refine ⟨h, ?_⟩
  rw [h]
  norm_num

/-- C7 amended: the reported MAPE always lies in `[0, 200]` (the kept
individual errors are filtered to at most 200%, so their median or mean,
scaled to percent, is at most 200), and errors strictly above 200% never
influence the aggregate: pre-filtering them away changes nothing. -/
theorem C7_amended :
    (∀ (actualRows : List (ℤ × ℚ)) (records : List ForecastRecord),
      0 ≤ computeLiveMape actualRows records ∧ computeLiveMape actualRows records ≤ 200) ∧
    (∀ errs : List ℚ,
      aggregateReasonable errs = aggregateReasonable (errs.filter (fun e => decide (e ≤ 2)))) := by
  constructor
  · intro actualRows records
    unfold computeLiveMape
    cases hcore : liveMapeCore actualRows records with
    | none => constructor <;> norm_num [Option.getD]
    | some v =>
      have := liveMapeCore_bounds actualRows records v hcore
      simpa [Option.getD] using this
  · intro errs
    unfold aggregateReasonable
    rw [List.filter_filter]
    rw [show (fun (a : ℚ) => decide (a ≤ 2) && decide (a ≤ 2)) = (fun (a : ℚ) => decide (a ≤ 2))
      from funext fun a => Bool.and_self _]

/-- Witness for C7's amended statement at a concrete store response. -/
theorem C7_witness :
    0 ≤ computeLiveMape c7actuals c7records ∧ computeLiveMape c7actuals c7records ≤ 200 :=
  C7_amended.1 c7actuals c7records

/-! ### Log-transform round trip: claim C9 -/

theorem map_roundtrip (ys : List ℚ) (hys : ∀ y ∈ ys, 0 ≤ y) :
    (ys.map (fun (y : ℚ) => log1p ((y:ℝ)))).map expm1 = ys.map (fun (y : ℚ) => ((y:ℝ))) := by
  induction ys with
  | nil => rfl
  | cons z zs ih =>
    have hz : (0:ℝ) ≤ ((z:ℝ)) := by
      exact_mod_cast hys z (by simp)
    simp only [List.map_cons, List.cons.injEq]
    constructor
    · unfold expm1 log1p
      rw [Real.exp_log (by linarith)]
      ring
    · exact ih (fun y hy => hys y (by simp [hy]))

/-- C9: the `log1p` transform fires exactly above the fixed 1000 ceiling,
records the original values, inverts all three prediction columns with
`expm1`, restores every non-negative value on the full forward/inverse
cycle, and preserves the bound ordering. -/
theorem C9_log_transform (ys : List ℚ) (hys : ∀ y ∈ ys, 0 ≤ y)
    (p : FuturePointR) (h1 : p.yhatLower ≤ p.yhat) (h2 : p.yhat ≤ p.yhatUpper) :
    C9Prop ys p := by
  refine ⟨by simp [useLogTransform], ?_, ?_, ⟨rfl, rfl, rfl⟩, rfl, ?_, ?_⟩
  · intro h
    simp [transformSeries, h]
  · intro h
    unfold transformSeries
    rw [if_pos h]
    exact map_roundtrip ys hys
  · show expm1 p.yhatLower ≤ expm1 p.yhat
    unfold expm1
    have := Real.exp_le_exp.mpr h1
    linarith
  · show expm1 p.yhat ≤ expm1 p.yhatUpper
    unfold expm1
    have := Real.exp_le_exp.mpr h2
    linarith

/-- Witness for C9 at the series `[2000]` (which trips the transform)
and a concrete ordered prediction row. -/
theorem C9_witness :
    (∀ y ∈ ([2000] : List ℚ), 0 ≤ y) ∧
    ((⟨0, 1, 0, 2⟩ : FuturePointR).yhatLower ≤ (⟨0, 1, 0, 2⟩ : FuturePointR).yhat) ∧
    ((⟨0, 1, 0, 2⟩ : FuturePointR).yhat ≤ (⟨0, 1, 0, 2⟩ : FuturePointR).yhatUpper) ∧
    C9Prop [2000] ⟨0, 1, 0, 2⟩ :=
  ⟨by norm_num, by norm_num, by norm_num,
    C9_log_transform [2000] (by norm_num) ⟨0, 1, 0, 2⟩ (by norm_num) (by norm_num)⟩

/-! ### Fallback accuracy metric: claim C10 -/

set_option maxRecDepth 40000 in
/-- C10 counterexample: with no usable live-recalibration data the source
reports the fixed constant 11.9 even though the specification's
coefficient-of-variation proxy is defined (mean 50 > 0) and evaluates to
0 on the constant cleaned series. -/
theorem C10_counterexample :
    (clean_and_forecast c10series trivPredict [] [] 30).mape = 119/10 ∧
    specFallbackMape (capOutliers ((fillMissingDays c10series).map Prod.snd)) = 0 ∧
    ((119:ℚ)/10) ≠ 0 := by
  refine ⟨?_, ?_, by norm_num⟩
  · unfold clean_and_forecast
    rw [if_neg (by decide : ¬ (c10series.length < 21))]
    rfl
  have hcap : capOutliers ((fillMissingDays c10series).map Prod.snd) =
      List.replicate 25 (50:ℚ) := by with_unfolding_all rfl
  have hmean : listMean (List.replicate 25 (50:ℚ)) = 50 := by with_unfolding_all rfl
  have hvar : varianceQ (List.replicate 25 (50:ℚ)) = 0 := by with_unfolding_all rfl
  rw [hcap]
  unfold specFallbackMape
  rw [hmean, hvar, if_pos (by norm_num : (0:ℚ) < 50)]
  norm_num

/-- C10 amended: whenever the live-recalibration strategy yields nothing
trustworthy, the reported MAPE is the fixed constant 11.9 — no
coefficient-of-variation proxy of the cleaned series is consulted. -/
theorem C10_amended (series : List (ℤ × ℚ))
    (predict : ℕ → List ℚ → Bool → List FuturePoint)
    (actualRows : List (ℤ × ℚ)) (records : List ForecastRecord) (d : ℕ)
    (h21 : ¬ (series.length < 21))
    (hnone : liveMapeCore actualRows records = none) :
    (clean_and_forecast series predict actualRows records d).mape = 119/10 ∧
    computeLiveMape actualRows records = 119/10 := by
  have hm : computeLiveMape actualRows records = 119/10 := by
    unfold computeLiveMape
    rw [hnone]
    rfl
  refine ⟨?_, hm⟩
  unfold clean_and_forecast
  rw [if_neg h21]
  exact hm

/-- Witness for C10 on the 25-day constant series with an empty store. -/
theorem C10_witness :
    ¬ (c10series.length < 21) ∧ liveMapeCore [] [] = none ∧
    ((clean_and_forecast c10series trivPredict [] [] 30).mape = 119/10 ∧
      computeLiveMape [] [] = 119/10) :=
  ⟨by decide, rfl, C10_amended c10series trivPredict [] [] 30 (by decide) rfl⟩

end Pythia
